import Mathlib

/-!
# Verification of the Cisco ACL rule tokenizer/field-disambiguation engine

Shallow embedding of `src/acl_parser.py`. Python lists of tokens become
`List String`; Python's fallible operations (`list.index` raising
`ValueError`, out-of-range indexing raising `IndexError`, dict lookup
raising `KeyError`, `next` raising `StopIteration`, `[1]` on a short list)
become `Option`-valued computations, so a Python exception is modelled as
`none`. Python's negative-index semantics (an index `i < 0` addresses
`len + i`) is modelled explicitly. The regexes used by the source are
ASCII-scoped: `\d` becomes `Char.isDigit`, `^\d+$` becomes "non-empty and
all digits", `\.` becomes "contains a dot", `[a-z]` becomes "contains a
lowercase ASCII letter". CPython's `x is not ''` test on interned string
literals behaves as `x != ''` for the lists this program builds (split
tokens are never empty, padding entries are the interned empty string),
and is modelled as such.
-/

namespace AclParse

/-- Helper for `pySplit`: walk the characters, accumulating the current
token in reverse. -/
def splitWsAux : List Char → List Char → List String
  | [], acc => if acc.isEmpty then [] else [String.mk acc.reverse]
  | c :: rest, acc =>
    if c.isWhitespace then
      (if acc.isEmpty then [] else [String.mk acc.reverse]) ++ splitWsAux rest []
    else splitWsAux rest (c :: acc)

/-- Python `str.split()` with no argument: split on whitespace runs,
dropping empty pieces. -/
def pySplit (s : String) : List String := splitWsAux s.data []

/-- Remove leading whitespace characters. -/
def dropLeadWs : List Char → List Char
  | [] => []
  | c :: r => if c.isWhitespace then dropLeadWs r else c :: r

/-- Python `str.strip()`: remove leading and trailing whitespace. -/
def pyStrip (s : String) : String :=
  String.mk (dropLeadWs (dropLeadWs s.data.reverse).reverse)

/-- `acl_rule += [''] * (16 - len(acl_rule))` — right-pad with empty tokens
to width 16 (a no-op on longer lists, as in Python where a negative
repetition count yields an empty list). -/
def pad16 (toks : List String) : List String :=
  toks ++ List.replicate (16 - toks.length) ""

/-- Python list indexing `l[i]` for an `Int` index: a negative index `i`
addresses position `len + i`; an index out of range is an error (`none`). -/
def pyGet (l : List String) (i : Int) : Option String :=
  let j : Int := if i < 0 then (l.length : Int) + i else i
  if j < 0 then none else l.get? j.toNat

/-- Python `l.index(x)`: index of the first occurrence of `x`, or an error
(`none`, for `ValueError`) when `x` does not occur. -/
def pyIndex? (l : List String) (x : String) : Option Nat :=
  match l with
  | [] => none
  | a :: l' => if a = x then some 0 else (pyIndex? l' x).map (· + 1)

/-- `value_by_position(input_list, base_object, index_offset)` from the
source: `input_list[input_list.index(base_object) + index_offset]`. -/
def value_by_position (input_list : List String) (base_object : String)
    (index_offset : Int) : Option String :=
  (pyIndex? input_list base_object).bind
    (fun i => pyGet input_list ((i : Int) + index_offset))

/-- `re.search('\d', s)`: `s` contains a (decimal) digit. -/
def hasDigit (s : String) : Bool := s.data.any Char.isDigit

/-- `re.search('^\d+$', s)`: `s` is non-empty and consists of digits only. -/
def isNumStr (s : String) : Bool := !s.data.isEmpty && s.data.all Char.isDigit

/-- `re.search('\.', s)`: `s` contains a literal dot. -/
def hasDot (s : String) : Bool := s.data.any (fun c => c = '.')

/-- `re.search('[a-z]', s)`: `s` contains a lowercase ASCII letter. -/
def hasLower (s : String) : Bool := s.data.any (fun c => 'a' ≤ c && c ≤ 'z')

/-- `p` is an initial segment of `l`. -/
def charsPre : List Char → List Char → Bool
  | [], _ => true
  | _ :: _, [] => false
  | a :: p, b :: l => a = b && charsPre p l

/-- `p` occurs contiguously inside `l`. -/
def charsInside (p : List Char) : List Char → Bool
  | [] => p.isEmpty
  | b :: l => charsPre p (b :: l) || charsInside p l

/-- Python `'x' in s` substring test. -/
def isSubstrOf (needle hay : String) : Bool := charsInside needle.data hay.data

/-- Python `str.split(sep)` for a one-character separator, on the character
list: keeps empty pieces (`''.split('_') == ['']`). -/
def splitOnChar (c : Char) : List Char → List (List Char)
  | [] => [[]]
  | a :: rest =>
    match splitOnChar c rest with
    | [] => if a = c then [[]] else [[a]]
    | h :: t => if a = c then [] :: h :: t else (a :: h) :: t

/-- Python `s.split('_')`. -/
def splitUnderscore (s : String) : List String :=
  (splitOnChar '_' s.data).map (fun l => String.mk l)

/-- One step of `merge_dicts`: append `v` to the entry of key `k`, or add a
new `(k, [v])` entry at the end (Python dicts preserve insertion order). -/
def merge_add (d : List (String × List String)) (k v : String) :
    List (String × List String) :=
  if (d.find? (fun p => p.1 = k)).isSome then
    d.map (fun p => if p.1 = k then (p.1, p.2 ++ [v]) else p)
  else d ++ [(k, [v])]

/-- `merge_dicts(*dicts)` from the source, applied to the singleton dicts
`{name: value}` that `iana_srv_parser` builds, in order. -/
def merge_dicts (l : List (String × String)) : List (String × List String) :=
  l.foldl (fun d kv => merge_add d kv.1 kv.2) []

/-- The core of `iana_srv_parser`, with the CSV file reading abstracted to a
list of (Service Name, Transport Protocol, Port Number) rows: keep rows with
a non-empty name and port, map each to `{name: proto + '_' + port}`, and
merge. -/
def iana_srv_parse (rows : List (String × String × String)) :
    List (String × List String) :=
  merge_dicts ((rows.filter (fun r => r.1 ≠ "" ∧ r.2.2 ≠ "")).map
    (fun r => (r.1, r.2.1 ++ "_" ++ r.2.2)))

/-- Python dict lookup `iana_srv_mapping[srv]` (`KeyError` becomes `none`). -/
def dictGet (d : List (String × List String)) (k : String) :
    Option (List String) :=
  (d.find? (fun p => p.1 = k)).map (fun p => p.2)

/-- One iteration of the service-name mapping loop (lines 171–182 of the
source): apply the `netbios-ss` → `netbios-ssn` alias, and if the token
contains a lowercase letter, look it up, keep the entries containing the
protocol as a substring, join them and take the piece after the first
underscore (`''.join(...).split('_')[1]`; a missing piece, like a missing
key, is an error). -/
def resolve_service (iana : List (String × List String))
    (acl_proto srv_identifier : String) : Option String :=
  let srv := if srv_identifier = "netbios-ss" then "netbios-ssn"
             else srv_identifier
  if hasLower srv then
    match dictGet iana srv with
    | none => none
    | some lst =>
      (splitUnderscore (String.join (lst.filter
        (fun x => isSubstrOf acl_proto x)))).get? 1
  else some srv

/-- Lines 165–167: `next(x for x in reversed(acl_rule) if x is not '')` —
the last non-empty token (an empty iterator raises `StopIteration`), then
comparison against `'established'`. Returns the value `acl_state` gets. -/
def acl_state_of (acl_rule : List String) : Option String :=
  match acl_rule.reverse.find? (fun x => x != "") with
  | none => none
  | some x => some (if x = "established" then "established" else "")

/-- Lines 119–148 of the source: the body of the "no numeric value after
`src_ip`" branch, given the already-extracted `src_operator`. Returns
`(src_port_begin, src_port_end, dst_type, dst_ip)`; `dst_type` starts from
its initial value `'network'`. Evaluation order and short-circuiting follow
the Python line by line. -/
def parse_src_clause (acl_rule : List String) (src_operator : String) :
    Option (String × String × String × String) := do
  let src_port_begin ← value_by_position acl_rule src_operator 1
    let rangeOk ←
      if src_operator = "range" then do
        let a ← value_by_position acl_rule src_operator 1
        if isNumStr a then do
          let b ← value_by_position acl_rule src_operator 2
          pure (isNumStr b)
        else pure false
      else pure false
    let (src_port_end, dst_type, dst_ip) ←
      if rangeOk then do
        let c ← value_by_position acl_rule src_operator 3
        if c = "host" then do
          let spe ← value_by_position acl_rule src_operator 2
          let d ← value_by_position acl_rule src_operator 4
          pure (spe, "host", d)
        else do
          let spe ← value_by_position acl_rule src_operator 2
          let d ← value_by_position acl_rule src_operator 3
          pure (spe, "network", d)
      else do
        let u ← value_by_position acl_rule src_operator 2
        if u = "host" then do
          let d ← value_by_position acl_rule src_operator 3
          pure (("" : String), ("host" : String), d)
        else if hasDot u then
          pure ("", "network", u)
        else if u = "any" then do
          let w ← value_by_position acl_rule src_operator 3
          if hasDot w then pure ("", "network", "")
          else pure ("", "network", "any")
        else pure ("", "network", "")
    pure (src_port_begin, src_port_end, dst_type, dst_ip)

/-- Lines 150–163 of the source: the destination-operator / destination-port
block. It reads only `acl_rule` and the already-determined `dst_ip`, and
yields `(dst_operator, dst_port_begin, dst_port_end)`. The reversed-list
lookup with negative offsets is the source's device for anchoring on the
last occurrence of the operator keyword. -/
def parse_dst_op (acl_rule : List String) (dst_ip : String) :
    Option (String × String × String) := do
  let c ← value_by_position acl_rule dst_ip 1
  if c ≠ "" then
    if c = "eq" ∨ c = "gt" ∨ c = "lt" ∨ c = "range" then do
      let dst_operator := c
      let reversed_acl_rule := acl_rule.reverse
      let dst_port_begin ← value_by_position reversed_acl_rule dst_operator (-1)
      if dst_operator = "range" then do
        let x ← value_by_position reversed_acl_rule dst_operator (-1)
        if isNumStr x then do
          let y ← value_by_position reversed_acl_rule dst_operator (-2)
          if isNumStr y then
            pure (dst_operator, dst_port_begin, y)
          else
            pure (dst_operator, dst_port_begin, "")
        else
          pure (dst_operator, dst_port_begin, "")
      else
        pure (dst_operator, dst_port_begin, "")
    else
      pure ("", "", "")
  else
    pure ("", "", "")

/-- Lines 115–163 of the source: the digit test after `src_ip` (the
implicit-destination case, which skips the whole operator machinery), and
otherwise the source clause followed by the destination-operator block. -/
def parse_ports (acl_rule : List String) (src_ip : String) :
    Option (String × String × String × String × String × String × String × String) := do
  let t ← value_by_position acl_rule src_ip 1
  if hasDigit t then
    pure ("", "", "", "network", t, "", "", "")
  else
    let src_operator := t
    let (src_port_begin, src_port_end, dst_type, dst_ip) ←
      parse_src_clause acl_rule src_operator
    let (dst_operator, dst_port_begin, dst_port_end) ←
      parse_dst_op acl_rule dst_ip
    pure (src_operator, src_port_begin, src_port_end, dst_type, dst_ip,
      dst_operator, dst_port_begin, dst_port_end)

/-- The whole tcp/udp branch (lines 114–185): port block, `established`
check, then service-name resolution of the four port fields. Returns
`(src_operator, src_port_begin, src_port_end, dst_type, dst_ip,
dst_operator, dst_port_begin, dst_port_end, acl_state)`. -/
def parse_transport (iana : List (String × List String))
    (acl_rule : List String) (acl_proto src_ip : String) :
    Option (String × String × String × String × String × String × String × String × String) := do
  let (so, spb, spe, dty, dip, dop, dpb, dpe) ← parse_ports acl_rule src_ip
  let st ← acl_state_of acl_rule
  let spb' ← resolve_service iana acl_proto spb
  let spe' ← resolve_service iana acl_proto spe
  let dpb' ← resolve_service iana acl_proto dpb
  let dpe' ← resolve_service iana acl_proto dpe
  pure (so, spb', spe', dty, dip, dop, dpb', dpe', st)

/-- The output record, in the source's field order. -/
structure ParsedRule where
  acl_name : String
  acl_remark : String
  seq_number : String
  acl_action : String
  acl_proto : String
  src_type : String
  src_ip : String
  src_operator : String
  src_port_begin : String
  src_port_end : String
  dst_type : String
  dst_ip : String
  dst_operator : String
  dst_port_begin : String
  dst_port_end : String
  acl_state : String
deriving Repr, DecidableEq

/-- `' '.join(acl_rule[2:]).strip()` — the remark text of a (padded) remark
rule. -/
def remark_text (acl_rule : List String) : String :=
  pyStrip (String.intercalate " " (acl_rule.drop 2))

/-- `acl_rule_parser` on an already-tokenized rule. The process-wide
mutable `acl_name` and `acl_remark` globals become explicit inputs, and the
(possibly updated) `acl_remark` is returned alongside the rule. -/
def acl_rule_parse_toks (iana : List (String × List String))
    (acl_name acl_remark : String) (toks : List String) :
    Option (ParsedRule × String) := do
  let acl_rule := pad16 toks
  let seq_number ← pyGet acl_rule 0
  let acl_action ← pyGet acl_rule 1
  if acl_action = "remark" then
    let new_remark := remark_text acl_rule
    pure (⟨acl_name, new_remark, seq_number, acl_action, "", "", "", "",
      "", "", "", "", "", "", "", ""⟩, new_remark)
  else
    let acl_proto ← pyGet acl_rule 2
    let t3 ← pyGet acl_rule 3
    let (src_ip, src_type) ←
      if t3 = "host" then do
        let v ← pyGet acl_rule 4
        pure (v, ("host" : String))
      else pure (t3, ("network" : String))
    if acl_proto = "tcp" ∨ acl_proto = "udp" then do
      let (so, spb, spe, dty, dip, dop, dpb, dpe, st) ←
        parse_transport iana acl_rule acl_proto src_ip
      pure (⟨acl_name, acl_remark, seq_number, acl_action, acl_proto,
        src_type, src_ip, so, spb, spe, dty, dip, dop, dpb, dpe, st⟩,
        acl_remark)
    else do
      let src_ip2 ← pyGet acl_rule 3
      let dst_ip ← pyGet acl_rule 4
      pure (⟨acl_name, acl_remark, seq_number, acl_action, acl_proto,
        src_type, src_ip2, "", "", "", "network", dst_ip, "", "", "", ""⟩,
        acl_remark)

/-- `acl_rule_parser` proper: takes the rule as a string and splits it. -/
def acl_rule_parse (iana : List (String × List String))
    (acl_name acl_remark : String) (acl_rule : String) :
    Option (ParsedRule × String) :=
  acl_rule_parse_toks iana acl_name acl_remark (pySplit acl_rule)

/-- Sequential parsing of a list of rules, threading the sticky
`acl_remark` (the `for rule in acl_rules[1:]` loop). A rule whose parse
errors contributes `none` and leaves the remark unchanged. -/
def parse_seq (iana : List (String × List String)) (acl_name : String)
    (acl_remark : String) : List (List String) →
    List (Option ParsedRule) × String
  | [] => ([], acl_remark)
  | r :: rs =>
    match acl_rule_parse_toks iana acl_name acl_remark r with
    | some (pr, rem') =>
      (some pr :: (parse_seq iana acl_name rem' rs).1,
        (parse_seq iana acl_name rem' rs).2)
    | none =>
      (none :: (parse_seq iana acl_name acl_remark rs).1,
        (parse_seq iana acl_name acl_remark rs).2)

/-- Token of a list at a position (empty when out of range), used to state
claims about padded rules. -/
def elt (l : List String) (i : Nat) : String := l.getD i ""

/-! ## Basic lemmas about the embedding's primitives -/

theorem pad16_length (toks : List String) :
    (pad16 toks).length = max toks.length 16 := by
  simp [pad16]
  omega

theorem pad16_length_of_lt {toks : List String} (h : toks.length < 16) :
    (pad16 toks).length = 16 := by
  rw [pad16_length]
  omega

theorem pad16_length_ge (toks : List String) : 16 ≤ (pad16 toks).length := by
  rw [pad16_length]
  omega

theorem pyGet_ofNat (l : List String) (k : Nat) :
    pyGet l (k : Int) = l.get? k := by
  have h0 : ¬ ((k : Int) < 0) := by omega
  simp [pyGet, h0]

theorem pyGet_eq_elt {l : List String} {k : Nat} (h : k < l.length) :
    pyGet l (k : Int) = some (elt l k) := by
  rw [pyGet_ofNat, List.get?_eq_getElem?, List.getElem?_eq_getElem h]
  simp [elt, List.getD_eq_getElem?_getD, List.getElem?_eq_getElem h]

theorem pyIndex?_of_mem {l : List String} {x : String} (h : x ∈ l) :
    ∃ i, pyIndex? l x = some i ∧ i < l.length := by
  induction l with
  | nil => cases h
  | cons a l ih =>
    by_cases hax : a = x
    · exact ⟨0, by simp [pyIndex?, hax], by simp⟩
    · have hx : x ∈ l := by
        cases h with
        | head => exact absurd rfl hax
        | tail _ h' => exact h'
      obtain ⟨i, hi, hlt⟩ := ih hx
      exact ⟨i + 1, by simp [pyIndex?, hax, hi], by simp; omega⟩

theorem elt_mem {l : List String} {k : Nat} (h : k < l.length) :
    elt l k ∈ l := by
  rw [elt, List.getD_eq_getElem?_getD, List.getElem?_eq_getElem h]
  exact List.getElem_mem h

theorem isNumStr_ne_of {s t : String} (h : isNumStr s = true)
    (ht : isNumStr t = false) : s ≠ t := by
  intro e
  rw [e, ht] at h
  cases h

theorem isNumStr_ne_empty {s : String} (h : isNumStr s = true) : s ≠ "" :=
  isNumStr_ne_of h (by decide)

theorem isNumStr_hasLower {s : String} (h : isNumStr s = true) :
    hasLower s = false := by
  have hall : ∀ c ∈ s.data, Char.isDigit c = true := by
    rw [isNumStr, Bool.and_eq_true, List.all_eq_true] at h
    exact h.2
  rw [hasLower, List.any_eq_false]
  intro c hc
  have hd : Char.isDigit c = true := hall c hc
  have h9 : c ≤ '9' := by
    rw [Char.isDigit, Bool.and_eq_true] at hd
    simpa using hd.2
  intro hcl
  rw [Bool.and_eq_true] at hcl
  have ha : 'a' ≤ c := by simpa using hcl.1
  exact absurd (le_trans ha h9) (by decide)

theorem resolve_service_numeric (iana : List (String × List String))
    (proto : String) {s : String} (h : isNumStr s = true) :
    resolve_service iana proto s = some s := by
  have h1 : s ≠ "netbios-ss" := isNumStr_ne_of h (by decide)
  have h2 : hasLower s = false := isNumStr_hasLower h
  simp [resolve_service, h1, h2]

theorem resolve_service_empty (iana : List (String × List String))
    (proto : String) : resolve_service iana proto "" = some "" := rfl

theorem acl_state_of_isSome {l : List String} (h : ∃ x ∈ l, x ≠ "") :
    ∃ s, acl_state_of l = some s := by
  rw [acl_state_of]
  rcases hf : l.reverse.find? (fun x => x != "") with _ | x
  · rw [List.find?_eq_none] at hf
    obtain ⟨x, hx, hne⟩ := h
    have := hf x (List.mem_reverse.mpr hx)
    rw [bne_iff_ne] at this
    exact absurd hne (by simpa using this)
  · exact ⟨_, rfl⟩

/-! ## C3: the padding invariant makes relative lookups total -/

/-- C3: for an input rule shorter than the maximum width (16 tokens),
right-padded with empty tokens to 16 positions, the relative lookup
`value_by_position` never errors: the anchor (any token of the padded
sequence) is found at some index `i`, and for any offset landing within the
padded width the lookup returns a token. -/
theorem value_by_position_total (toks : List String)
    (h : toks.length < 16) (base : String) (off : Int)
    (hb : base ∈ pad16 toks) :
    ∃ i, pyIndex? (pad16 toks) base = some i ∧
      (0 ≤ (i : Int) + off → (i : Int) + off < 16 →
        ∃ v, value_by_position (pad16 toks) base off = some v) := by
  obtain ⟨i, hi, _⟩ := pyIndex?_of_mem hb
  refine ⟨i, hi, fun h1 h2 => ?_⟩
  have hlen : (pad16 toks).length = 16 := pad16_length_of_lt h
  have hnn : ¬ ((i : Int) + off < 0) := by omega
  have htn : ((i : Int) + off).toNat < (pad16 toks).length := by
    rw [hlen]; omega
  refine ⟨(pad16 toks).get ⟨((i : Int) + off).toNat, htn⟩, ?_⟩
  rw [value_by_position, hi, Option.some_bind, pyGet]
  simp only [hnn, if_false, if_neg hnn]
  rw [List.get?_eq_getElem?, List.getElem?_eq_getElem htn]
  rfl

/-- Witness for C3 at a concrete short rule: anchor `permit` in the padded
`["10", "permit"]`, offset 3 lands inside the padded width and yields a
token. -/
theorem value_by_position_total_witness :
    (["10", "permit"] : List String).length < 16 ∧
      ∃ i, pyIndex? (pad16 ["10", "permit"]) "permit" = some i ∧
        (0 ≤ (i : Int) + 3 → (i : Int) + 3 < 16 →
          ∃ v, value_by_position (pad16 ["10", "permit"]) "permit" 3 = some v) :=
  ⟨by decide, value_by_position_total ["10", "permit"] (by decide) "permit" 3
    (by decide)⟩

/-! ## The non-transport branch (claims C4 and C10) -/

/-- The non-tcp/udp, non-remark branch computed in closed form: `src_type`
follows the `host` test on token 3, but `src_ip` is then overwritten with
token 3 itself and `dst_ip` is token 4 (lines 187–189), and none of the
operator/port/state fields are touched after initialization. -/
theorem nontransport_eq (iana : List (String × List String))
    (name rem : String) (toks : List String)
    (hact : elt (pad16 toks) 1 ≠ "remark")
    (hp1 : elt (pad16 toks) 2 ≠ "tcp") (hp2 : elt (pad16 toks) 2 ≠ "udp") :
    acl_rule_parse_toks iana name rem toks =
      some (⟨name, rem, elt (pad16 toks) 0, elt (pad16 toks) 1,
        elt (pad16 toks) 2,
        (if elt (pad16 toks) 3 = "host" then "host" else "network"),
        elt (pad16 toks) 3, "", "", "", "network", elt (pad16 toks) 4,
        "", "", "", ""⟩, rem) := by
  have hlen := pad16_length_ge toks
  have g0 : pyGet (pad16 toks) (0 : Int) = some (elt (pad16 toks) 0) :=
    pyGet_eq_elt (l := pad16 toks) (k := 0) (by omega)
  have g1 : pyGet (pad16 toks) (1 : Int) = some (elt (pad16 toks) 1) :=
    pyGet_eq_elt (l := pad16 toks) (k := 1) (by omega)
  have g2 : pyGet (pad16 toks) (2 : Int) = some (elt (pad16 toks) 2) :=
    pyGet_eq_elt (l := pad16 toks) (k := 2) (by omega)
  have g3 : pyGet (pad16 toks) (3 : Int) = some (elt (pad16 toks) 3) :=
    pyGet_eq_elt (l := pad16 toks) (k := 3) (by omega)
  have g4 : pyGet (pad16 toks) (4 : Int) = some (elt (pad16 toks) 4) :=
    pyGet_eq_elt (l := pad16 toks) (k := 4) (by omega)
  by_cases h3 : elt (pad16 toks) 3 = "host" <;>
    simp [acl_rule_parse_toks, g0, g1, g2, g3, g4, hact, hp1, hp2, h3]

/-- C10: for every permit/deny rule whose protocol (token 2) is neither
`tcp` nor `udp`, the returned record always has `dst_type = "network"` —
whatever the destination tokens look like — and `src_operator`,
`src_port_begin`, `src_port_end`, `dst_operator`, `dst_port_begin`,
`dst_port_end` and `acl_state` all empty: the non-transport branch never
touches those fields after initialization. -/
theorem nontransport_frame (iana : List (String × List String))
    (name rem : String) (toks : List String)
    (hact : elt (pad16 toks) 1 = "permit" ∨ elt (pad16 toks) 1 = "deny")
    (hp1 : elt (pad16 toks) 2 ≠ "tcp") (hp2 : elt (pad16 toks) 2 ≠ "udp") :
    ∃ pr, acl_rule_parse_toks iana name rem toks = some (pr, rem) ∧
      pr.dst_type = "network" ∧ pr.src_operator = "" ∧
      pr.src_port_begin = "" ∧ pr.src_port_end = "" ∧
      pr.dst_operator = "" ∧ pr.dst_port_begin = "" ∧
      pr.dst_port_end = "" ∧ pr.acl_state = "" := by
  have hne : elt (pad16 toks) 1 ≠ "remark" := by
    rcases hact with h | h <;> rw [h] <;> decide
  exact ⟨_, nontransport_eq iana name rem toks hne hp1 hp2,
    rfl, rfl, rfl, rfl, rfl, rfl, rfl, rfl⟩

/-- Witness for C10 on the rule `10 permit ip host 10.1.1.1 10.2.2.2`
(whose destination part even carries no chance of ports). -/
theorem nontransport_frame_witness :
    (elt (pad16 (pySplit "10 permit ip host 10.1.1.1 10.2.2.2")) 1 = "permit" ∨
      elt (pad16 (pySplit "10 permit ip host 10.1.1.1 10.2.2.2")) 1 = "deny") ∧
    elt (pad16 (pySplit "10 permit ip host 10.1.1.1 10.2.2.2")) 2 ≠ "tcp" ∧
    elt (pad16 (pySplit "10 permit ip host 10.1.1.1 10.2.2.2")) 2 ≠ "udp" ∧
    ∃ pr, acl_rule_parse_toks [] "N" ""
        (pySplit "10 permit ip host 10.1.1.1 10.2.2.2") = some (pr, "") ∧
      pr.dst_type = "network" ∧ pr.src_operator = "" ∧
      pr.src_port_begin = "" ∧ pr.src_port_end = "" ∧
      pr.dst_operator = "" ∧ pr.dst_port_begin = "" ∧
      pr.dst_port_end = "" ∧ pr.acl_state = "" :=
  ⟨Or.inl (by decide), by decide, by decide,
    nontransport_frame [] "N" "" (pySplit "10 permit ip host 10.1.1.1 10.2.2.2")
      (Or.inl (by decide)) (by decide) (by decide)⟩

/-- C4 fails as stated: on `10 permit ip host 10.1.1.1 10.2.2.2` (protocol
`ip`, a `host` source qualifier) the claim predicts `src_ip = "10.1.1.1"`
(token at position 4) and `dst_ip = "10.2.2.2"` (the token following it),
but the code returns `src_ip = "host"` and `dst_ip = "10.1.1.1"`, because
the non-transport branch re-assigns `src_ip = acl_rule[3]` and
`dst_ip = acl_rule[4]` unconditionally. -/
theorem nontransport_addresses_cex :
    (acl_rule_parse [] "N" "" "10 permit ip host 10.1.1.1 10.2.2.2").map
      (fun p => (p.1.src_type, p.1.src_ip, p.1.dst_ip)) =
      some ("host", "host", "10.1.1.1") ∧
    ("host" : String) ≠ "10.1.1.1" ∧ ("10.1.1.1" : String) ≠ "10.2.2.2" :=
  ⟨rfl, by decide, by decide⟩

/-- C4 (amended): for every permit/deny rule whose protocol is neither
`tcp` nor `udp`, `src_type` is `host`/`network` according to the `host`
test on token 3, but `src_ip` is always the token at position 3 (the
literal `host` when a host qualifier is present) and `dst_ip` is always the
token at position 4; parsing ends there and no port fields are set. -/
theorem nontransport_addresses (iana : List (String × List String))
    (name rem : String) (toks : List String)
    (hact : elt (pad16 toks) 1 = "permit" ∨ elt (pad16 toks) 1 = "deny")
    (hp1 : elt (pad16 toks) 2 ≠ "tcp") (hp2 : elt (pad16 toks) 2 ≠ "udp") :
    ∃ pr, acl_rule_parse_toks iana name rem toks = some (pr, rem) ∧
      pr.src_type = (if elt (pad16 toks) 3 = "host" then "host" else "network") ∧
      pr.src_ip = elt (pad16 toks) 3 ∧ pr.dst_ip = elt (pad16 toks) 4 ∧
      pr.src_operator = "" ∧ pr.src_port_begin = "" ∧ pr.src_port_end = "" ∧
      pr.dst_operator = "" ∧ pr.dst_port_begin = "" ∧ pr.dst_port_end = "" := by
  have hne : elt (pad16 toks) 1 ≠ "remark" := by
    rcases hact with h | h <;> rw [h] <;> decide
  exact ⟨_, nontransport_eq iana name rem toks hne hp1 hp2,
    rfl, rfl, rfl, rfl, rfl, rfl, rfl, rfl, rfl⟩

/-- Witness for the amended C4 on `10 permit ip host 10.1.1.1 10.2.2.2`. -/
theorem nontransport_addresses_witness :
    (elt (pad16 (pySplit "10 permit ip host 10.1.1.1 10.2.2.2")) 1 = "permit" ∨
      elt (pad16 (pySplit "10 permit ip host 10.1.1.1 10.2.2.2")) 1 = "deny") ∧
    elt (pad16 (pySplit "10 permit ip host 10.1.1.1 10.2.2.2")) 2 ≠ "tcp" ∧
    elt (pad16 (pySplit "10 permit ip host 10.1.1.1 10.2.2.2")) 2 ≠ "udp" ∧
    ∃ pr, acl_rule_parse_toks [] "N" ""
        (pySplit "10 permit ip host 10.1.1.1 10.2.2.2") = some (pr, "") ∧
      pr.src_type = (if elt (pad16 (pySplit "10 permit ip host 10.1.1.1 10.2.2.2")) 3 = "host"
        then "host" else "network") ∧
      pr.src_ip = elt (pad16 (pySplit "10 permit ip host 10.1.1.1 10.2.2.2")) 3 ∧
      pr.dst_ip = elt (pad16 (pySplit "10 permit ip host 10.1.1.1 10.2.2.2")) 4 ∧
      pr.src_operator = "" ∧ pr.src_port_begin = "" ∧ pr.src_port_end = "" ∧
      pr.dst_operator = "" ∧ pr.dst_port_begin = "" ∧ pr.dst_port_end = "" :=
  ⟨Or.inl (by decide), by decide, by decide,
    nontransport_addresses [] "N" "" (pySplit "10 permit ip host 10.1.1.1 10.2.2.2")
      (Or.inl (by decide)) (by decide) (by decide)⟩

/-! ## C8: a numeric token right after the source address is the destination -/

/-- The rule has a non-empty action token, so the `established` scan finds a
last non-empty token and cannot raise. -/
theorem acl_state_of_pad {toks : List String}
    (h1 : elt (pad16 toks) 1 ≠ "") :
    ∃ s, acl_state_of (pad16 toks) = some s := by
  have hlen := pad16_length_ge toks
  exact acl_state_of_isSome ⟨elt (pad16 toks) 1, elt_mem (by omega), h1⟩

/-- The lookup one past a known anchor index returns the element there. -/
theorem value_by_position_succ {P : List String} {sip : String} {spos : Nat}
    (hidx : pyIndex? P sip = some spos) (hlt : spos + 1 < P.length) :
    value_by_position P sip 1 = some (elt P (spos + 1)) := by
  rw [value_by_position, hidx, Option.some_bind]
  have hc : ((spos : Int) + 1) = ((spos + 1 : Nat) : Int) := by push_cast; ring
  rw [hc]
  exact pyGet_eq_elt hlt

/-- C8: for every permit/deny rule with protocol `tcp`/`udp`, when the
token one position after `src_ip` (at `src_ip`'s position, per the code's
first-occurrence anchor) contains a digit, that token becomes `dst_ip`
directly and `src_operator`, `src_port_begin` and `src_port_end` remain
empty: the rule is treated as having no source port clause. -/
theorem implicit_dst (iana : List (String × List String))
    (name rem : String) (toks : List String) (sip : String) (spos : Nat)
    (hact : elt (pad16 toks) 1 = "permit" ∨ elt (pad16 toks) 1 = "deny")
    (hproto : elt (pad16 toks) 2 = "tcp" ∨ elt (pad16 toks) 2 = "udp")
    (hsip : sip = (if elt (pad16 toks) 3 = "host" then elt (pad16 toks) 4
      else elt (pad16 toks) 3))
    (hspos : spos = (if elt (pad16 toks) 3 = "host" then 4 else 3))
    (hidx : pyIndex? (pad16 toks) sip = some spos)
    (hdig : hasDigit (elt (pad16 toks) (spos + 1)) = true) :
    ∃ pr, acl_rule_parse_toks iana name rem toks = some (pr, rem) ∧
      pr.dst_ip = elt (pad16 toks) (spos + 1) ∧ pr.src_operator = "" ∧
      pr.src_port_begin = "" ∧ pr.src_port_end = "" := by
  have hlen := pad16_length_ge toks
  have hlt : spos + 1 < (pad16 toks).length := by
    rcases hspos with rfl
    split <;> omega
  have hv := value_by_position_succ hidx hlt
  have hports : parse_ports (pad16 toks) sip =
      some ("", "", "", "network", elt (pad16 toks) (spos + 1), "", "", "") := by
    simp [parse_ports, hv, hdig]
  have hne_remark : elt (pad16 toks) 1 ≠ "remark" := by
    rcases hact with h | h <;> rw [h] <;> decide
  have hne_empty : elt (pad16 toks) 1 ≠ "" := by
    rcases hact with h | h <;> rw [h] <;> decide
  obtain ⟨st, hst⟩ := acl_state_of_pad hne_empty
  have htr : parse_transport iana (pad16 toks) (elt (pad16 toks) 2) sip =
      some ("", "", "", "network", elt (pad16 toks) (spos + 1), "", "", "", st) := by
    simp [parse_transport, hports, hst, resolve_service_empty]
  have g0 : pyGet (pad16 toks) (0 : Int) = some (elt (pad16 toks) 0) :=
    pyGet_eq_elt (l := pad16 toks) (k := 0) (by omega)
  have g1 : pyGet (pad16 toks) (1 : Int) = some (elt (pad16 toks) 1) :=
    pyGet_eq_elt (l := pad16 toks) (k := 1) (by omega)
  have g2 : pyGet (pad16 toks) (2 : Int) = some (elt (pad16 toks) 2) :=
    pyGet_eq_elt (l := pad16 toks) (k := 2) (by omega)
  have g3 : pyGet (pad16 toks) (3 : Int) = some (elt (pad16 toks) 3) :=
    pyGet_eq_elt (l := pad16 toks) (k := 3) (by omega)
  have g4 : pyGet (pad16 toks) (4 : Int) = some (elt (pad16 toks) 4) :=
    pyGet_eq_elt (l := pad16 toks) (k := 4) (by omega)
  by_cases h3 : elt (pad16 toks) 3 = "host"
  · have hsip4 : sip = elt (pad16 toks) 4 := by rw [hsip, if_pos h3]
    refine ⟨⟨name, rem, elt (pad16 toks) 0, elt (pad16 toks) 1,
      elt (pad16 toks) 2, "host", sip, "", "", "", "network",
      elt (pad16 toks) (spos + 1), "", "", "", st⟩, ?_, rfl, rfl, rfl, rfl⟩
    simp [acl_rule_parse_toks, g0, g1, g2, g3, g4, hne_remark, h3, hproto,
      ← hsip4, htr]
  · have hsip3 : sip = elt (pad16 toks) 3 := by rw [hsip, if_neg h3]
    have h3s : ¬ (sip = "host") := by rw [hsip3]; exact h3
    refine ⟨⟨name, rem, elt (pad16 toks) 0, elt (pad16 toks) 1,
      elt (pad16 toks) 2, "network", sip, "", "", "", "network",
      elt (pad16 toks) (spos + 1), "", "", "", st⟩, ?_, rfl, rfl, rfl, rfl⟩
    simp [acl_rule_parse_toks, g0, g1, g2, g3, g4, hne_remark, h3, h3s, hproto,
      ← hsip3, htr]


/-- Witness for C8 on `10 permit tcp any 10.0.0.0 eq 80`: the token after
`any` is `10.0.0.0`, which contains a digit, so it becomes `dst_ip` and the
source port clause stays empty (the trailing `eq 80` is ignored by this
branch). -/
theorem implicit_dst_witness :
    (elt (pad16 (pySplit "10 permit tcp any 10.0.0.0 eq 80")) 1 = "permit" ∨
      elt (pad16 (pySplit "10 permit tcp any 10.0.0.0 eq 80")) 1 = "deny") ∧
    (elt (pad16 (pySplit "10 permit tcp any 10.0.0.0 eq 80")) 2 = "tcp" ∨
      elt (pad16 (pySplit "10 permit tcp any 10.0.0.0 eq 80")) 2 = "udp") ∧
    pyIndex? (pad16 (pySplit "10 permit tcp any 10.0.0.0 eq 80")) "any" = some 3 ∧
    hasDigit (elt (pad16 (pySplit "10 permit tcp any 10.0.0.0 eq 80")) (3 + 1)) = true ∧
    ∃ pr, acl_rule_parse_toks [] "N" ""
        (pySplit "10 permit tcp any 10.0.0.0 eq 80") = some (pr, "") ∧
      pr.dst_ip = elt (pad16 (pySplit "10 permit tcp any 10.0.0.0 eq 80")) (3 + 1) ∧
      pr.src_operator = "" ∧ pr.src_port_begin = "" ∧ pr.src_port_end = "" :=
  ⟨Or.inl (by decide), Or.inl (by decide), by decide, by decide,
    implicit_dst [] "N" "" (pySplit "10 permit tcp any 10.0.0.0 eq 80")
      "any" 3 (Or.inl (by decide)) (Or.inl (by decide)) (by decide) (by decide)
      (by decide) (by decide)⟩

/-! ## C5: remark rules and the sticky remark -/

/-- A remark rule in closed form: all address/port fields stay empty,
`src_type`/`dst_type` are set to the empty string, and both the rule's
`acl_remark` field and the carried-forward remark become the joined text. -/
theorem remark_eq (iana : List (String × List String))
    (name rem : String) (toks : List String)
    (h : elt (pad16 toks) 1 = "remark") :
    acl_rule_parse_toks iana name rem toks =
      some (⟨name, remark_text (pad16 toks), elt (pad16 toks) 0, "remark",
        "", "", "", "", "", "", "", "", "", "", "", ""⟩,
        remark_text (pad16 toks)) := by
  have hlen := pad16_length_ge toks
  have g0 : pyGet (pad16 toks) (0 : Int) = some (elt (pad16 toks) 0) :=
    pyGet_eq_elt (l := pad16 toks) (k := 0) (by omega)
  have g1 : pyGet (pad16 toks) (1 : Int) = some (elt (pad16 toks) 1) :=
    pyGet_eq_elt (l := pad16 toks) (k := 1) (by omega)
  simp [acl_rule_parse_toks, g0, g1, h]

/-- A successfully parsed non-remark rule leaves the sticky remark
unchanged and stamps it into its own `acl_remark` field. -/
theorem nonremark_frame {iana : List (String × List String)}
    {name rem : String} {toks : List String} {pr : ParsedRule} {rem' : String}
    (h : elt (pad16 toks) 1 ≠ "remark")
    (heq : acl_rule_parse_toks iana name rem toks = some (pr, rem')) :
    rem' = rem ∧ pr.acl_remark = rem := by
  have hlen := pad16_length_ge toks
  have g0 : pyGet (pad16 toks) (0 : Int) = some (elt (pad16 toks) 0) :=
    pyGet_eq_elt (l := pad16 toks) (k := 0) (by omega)
  have g1 : pyGet (pad16 toks) (1 : Int) = some (elt (pad16 toks) 1) :=
    pyGet_eq_elt (l := pad16 toks) (k := 1) (by omega)
  have g2 : pyGet (pad16 toks) (2 : Int) = some (elt (pad16 toks) 2) :=
    pyGet_eq_elt (l := pad16 toks) (k := 2) (by omega)
  have g3 : pyGet (pad16 toks) (3 : Int) = some (elt (pad16 toks) 3) :=
    pyGet_eq_elt (l := pad16 toks) (k := 3) (by omega)
  have g4 : pyGet (pad16 toks) (4 : Int) = some (elt (pad16 toks) 4) :=
    pyGet_eq_elt (l := pad16 toks) (k := 4) (by omega)
  rw [acl_rule_parse_toks] at heq
  simp only [Option.bind_eq_bind, Option.pure_def, g0, g1, g2, g3, g4,
    Option.some_bind, if_neg h] at heq
  split at heq
  · split at heq
    · rcases htr : parse_transport iana (pad16 toks) (elt (pad16 toks) 2)
        (elt (pad16 toks) 4) with _ | tf
      · rw [htr] at heq
        simp at heq
      · rw [htr] at heq
        obtain ⟨a1, a2, a3, a4, a5, a6, a7, a8, a9⟩ := tf
        simp only [Option.bind_eq_bind, Option.pure_def, Option.some_bind,
          Option.some.injEq, Prod.mk.injEq] at heq
        exact ⟨heq.2.symm, by rw [← heq.1]⟩
    · simp only [g3, g4, Option.bind_eq_bind, Option.pure_def,
        Option.some_bind, Option.some.injEq, Prod.mk.injEq] at heq
      exact ⟨heq.2.symm, by rw [← heq.1]⟩
  · split at heq
    · rcases htr : parse_transport iana (pad16 toks) (elt (pad16 toks) 2)
        (elt (pad16 toks) 3) with _ | tf
      · rw [htr] at heq
        simp at heq
      · rw [htr] at heq
        obtain ⟨a1, a2, a3, a4, a5, a6, a7, a8, a9⟩ := tf
        simp only [Option.bind_eq_bind, Option.pure_def, Option.some_bind,
          Option.some.injEq, Prod.mk.injEq] at heq
        exact ⟨heq.2.symm, by rw [← heq.1]⟩
    · simp only [g3, g4, Option.bind_eq_bind, Option.pure_def,
        Option.some_bind, Option.some.injEq, Prod.mk.injEq] at heq
      exact ⟨heq.2.symm, by rw [← heq.1]⟩

/-- Sequentially parsing rules none of which is a remark keeps the sticky
remark constant and stamps it on every successfully parsed rule. -/
theorem parse_seq_sticky (iana : List (String × List String))
    (name T : String) (rs : List (List String))
    (hrs : ∀ r ∈ rs, elt (pad16 r) 1 ≠ "remark") :
    (parse_seq iana name T rs).2 = T ∧
    ∀ q ∈ (parse_seq iana name T rs).1, ∀ x, q = some x →
      x.acl_remark = T := by
  induction rs with
  | nil => exact ⟨rfl, by simp [parse_seq]⟩
  | cons r rs ih =>
    have hr : elt (pad16 r) 1 ≠ "remark" := hrs r (List.mem_cons_self r rs)
    have hrs' : ∀ r' ∈ rs, elt (pad16 r') 1 ≠ "remark" :=
      fun r' h' => hrs r' (List.mem_cons_of_mem r h')
    obtain ⟨ih1, ih2⟩ := ih hrs'
    rcases hp : acl_rule_parse_toks iana name T r with _ | pp
    · refine ⟨by simp [parse_seq, hp, ih1], ?_⟩
      intro q hq x hqx
      simp only [parse_seq, hp, List.mem_cons] at hq
      rcases hq with hq | hq
      · rw [hq] at hqx
        cases hqx
      · exact ih2 q hq x hqx
    · obtain ⟨pr, rem'⟩ := pp
      obtain ⟨h1, h2⟩ := nonremark_frame hr hp
      subst h1
      refine ⟨by simp [parse_seq, hp, ih1], ?_⟩
      intro q hq x hqx
      simp only [parse_seq, hp, List.mem_cons] at hq
      rcases hq with hq | hq
      · rw [hq] at hqx
        injection hqx with hx
        rw [← hx]
        exact h2
      · exact ih2 q hq x hqx

/-- C5: parsing a rule whose action token is `remark` populates no
address/port fields (`acl_proto`, `src_ip`, `src_operator`, the four port
fields, `dst_ip`, `dst_operator` and `acl_state` stay empty; `src_type` and
`dst_type` are set to the empty string), the remark's joined text becomes
the carried remark, and every subsequently parsed non-remark rule's
`acl_remark` field equals that text. -/
theorem remark_rule_sticky (iana : List (String × List String))
    (name rem : String) (toks : List String) (rs : List (List String))
    (h : elt (pad16 toks) 1 = "remark")
    (hrs : ∀ r ∈ rs, elt (pad16 r) 1 ≠ "remark") :
    ∃ pr, acl_rule_parse_toks iana name rem toks =
        some (pr, remark_text (pad16 toks)) ∧
      pr.acl_remark = remark_text (pad16 toks) ∧
      pr.acl_proto = "" ∧ pr.src_type = "" ∧ pr.src_ip = "" ∧
      pr.src_operator = "" ∧ pr.src_port_begin = "" ∧ pr.src_port_end = "" ∧
      pr.dst_type = "" ∧ pr.dst_ip = "" ∧ pr.dst_operator = "" ∧
      pr.dst_port_begin = "" ∧ pr.dst_port_end = "" ∧ pr.acl_state = "" ∧
      ∀ q ∈ (parse_seq iana name (remark_text (pad16 toks)) rs).1,
        ∀ x, q = some x → x.acl_remark = remark_text (pad16 toks) :=
  ⟨_, remark_eq iana name rem toks h, rfl, rfl, rfl, rfl, rfl, rfl, rfl,
    rfl, rfl, rfl, rfl, rfl, rfl,
    (parse_seq_sticky iana name (remark_text (pad16 toks)) rs hrs).2⟩

/-- Witness for C5: `30 remark allow web traffic` followed by
`40 permit ip any 1.2.3.4`. -/
theorem remark_rule_sticky_witness :
    elt (pad16 (pySplit "30 remark allow web traffic")) 1 = "remark" ∧
    (∀ r ∈ [pySplit "40 permit ip any 1.2.3.4"],
      elt (pad16 r) 1 ≠ "remark") ∧
    ∃ pr, acl_rule_parse_toks [] "N" "" (pySplit "30 remark allow web traffic") =
        some (pr, remark_text (pad16 (pySplit "30 remark allow web traffic"))) ∧
      pr.acl_remark = remark_text (pad16 (pySplit "30 remark allow web traffic")) ∧
      pr.acl_proto = "" ∧ pr.src_type = "" ∧ pr.src_ip = "" ∧
      pr.src_operator = "" ∧ pr.src_port_begin = "" ∧ pr.src_port_end = "" ∧
      pr.dst_type = "" ∧ pr.dst_ip = "" ∧ pr.dst_operator = "" ∧
      pr.dst_port_begin = "" ∧ pr.dst_port_end = "" ∧ pr.acl_state = "" ∧
      ∀ q ∈ (parse_seq [] "N"
          (remark_text (pad16 (pySplit "30 remark allow web traffic")))
          [pySplit "40 permit ip any 1.2.3.4"]).1,
        ∀ x, q = some x →
          x.acl_remark = remark_text (pad16 (pySplit "30 remark allow web traffic")) :=
  ⟨by decide,
    by
      intro r hr
      rw [List.mem_singleton] at hr
      subst hr
      decide,
    remark_rule_sticky [] "N" "" (pySplit "30 remark allow web traffic")
      [pySplit "40 permit ip any 1.2.3.4"] (by decide)
      (by
        intro r hr
        rw [List.mem_singleton] at hr
        subst hr
        decide)⟩

/-! ## C9: a false `range` match leaves `src_port_end` empty, when the
parse completes at all -/

/-- Every leaf of the non-range destination-address sub-branch (lines
136–148) leaves `src_port_end` empty. -/
theorem spe_branch_aux (P : List String) (a u : String)
    (o : String × String × String × String)
    (heq : (if u = "host" then
        (value_by_position P "range" 3).bind fun d => some (a, "", "host", d)
      else if hasDot u = true then some (a, "", "network", u)
      else if u = "any" then
        (value_by_position P "range" 3).bind fun w =>
          if hasDot w = true then some (a, "", "network", "")
          else some (a, "", "network", "any")
      else some (a, "", "network", "")) = some o) : o.2.1 = "" := by
  split at heq
  · rcases h4 : value_by_position P "range" 3 with _ | d
    · rw [h4] at heq
      simp at heq
    · rw [h4] at heq
      simp only [Option.some_bind, Option.some.injEq] at heq
      rw [← heq]
  · split at heq
    · simp only [Option.some.injEq] at heq
      rw [← heq]
    · split at heq
      · rcases h4 : value_by_position P "range" 3 with _ | w
        · rw [h4] at heq
          simp at heq
        · rw [h4] at heq
          simp only [Option.some_bind] at heq
          split at heq <;>
            (simp only [Option.some.injEq] at heq; rw [← heq])
      · simp only [Option.some.injEq] at heq
        rw [← heq]

/-- When the two tokens after the first `range` are not both numeric, any
completed source clause has an empty `src_port_end`. -/
theorem parse_src_clause_spe (P : List String)
    (hnn : ¬ ∃ a b, value_by_position P "range" 1 = some a ∧
      value_by_position P "range" 2 = some b ∧
      isNumStr a = true ∧ isNumStr b = true) :
    ∀ o, parse_src_clause P "range" = some o → o.2.1 = "" := by
  intro o heq
  rw [parse_src_clause] at heq
  rcases h1 : value_by_position P "range" 1 with _ | a
  · rw [h1] at heq
    simp at heq
  rw [h1] at heq
  simp only [Option.bind_eq_bind, Option.pure_def, Option.some_bind,
    if_pos rfl, h1, if_true] at heq
  rcases hna : isNumStr a with _ | _
  · simp only [hna, Bool.false_eq_true, if_false] at heq
    rcases h3 : value_by_position P "range" 2 with _ | u
    · rw [h3] at heq
      simp at heq
    · rw [h3] at heq
      simp only [Option.some_bind] at heq
      exact spe_branch_aux P a u o heq
  · simp only [hna, if_true] at heq
    rcases h2 : value_by_position P "range" 2 with _ | b
    · rw [h2] at heq
      simp at heq
    · rw [h2] at heq
      simp only [Option.some_bind] at heq
      rcases hnb : isNumStr b with _ | _
      · simp only [hnb, Bool.false_eq_true, if_false] at heq
        exact spe_branch_aux P a b o heq
      · exact absurd ⟨a, b, h1, h2, hna, hnb⟩ hnn

/-- The same, through the whole port block: the destination-operator block
never writes `src_port_end`. -/
theorem parse_ports_spe (P : List String) (sip : String)
    (hr : value_by_position P sip 1 = some "range")
    (hnn : ¬ ∃ a b, value_by_position P "range" 1 = some a ∧
      value_by_position P "range" 2 = some b ∧
      isNumStr a = true ∧ isNumStr b = true) :
    ∀ o, parse_ports P sip = some o → o.2.2.1 = "" := by
  intro o heq
  rw [parse_ports, hr] at heq
  simp only [Option.bind_eq_bind, Option.pure_def, Option.some_bind] at heq
  rw [if_neg (by decide : ¬ hasDigit "range" = true)] at heq
  rcases hs : parse_src_clause P "range" with _ | q
  · rw [hs] at heq
    simp at heq
  · have hspe : q.2.1 = "" := parse_src_clause_spe P hnn q hs
    obtain ⟨q1, q2, q3, q4⟩ := q
    rw [hs] at heq
    simp only [Option.some_bind] at heq
    rcases hd : parse_dst_op P q4 with _ | d
    · rw [hd] at heq
      simp at heq
    · obtain ⟨d1, d2, d3⟩ := d
      rw [hd] at heq
      simp only [Option.some_bind, Option.some.injEq] at heq
      rw [← heq]
      exact hspe

/-- The same, through the transport branch: resolving the empty
`src_port_end` against the service table yields the empty string again. -/
theorem parse_transport_spe (iana : List (String × List String))
    (P : List String) (proto sip : String)
    (hr : value_by_position P sip 1 = some "range")
    (hnn : ¬ ∃ a b, value_by_position P "range" 1 = some a ∧
      value_by_position P "range" 2 = some b ∧
      isNumStr a = true ∧ isNumStr b = true) :
    ∀ t, parse_transport iana P proto sip = some t → t.2.2.1 = "" := by
  intro t heq
  rw [parse_transport] at heq
  rcases hp : parse_ports P sip with _ | o
  · rw [hp] at heq
    simp at heq
  · have hspe : o.2.2.1 = "" := parse_ports_spe P sip hr hnn o hp
    obtain ⟨o1, o2, o3, o4, o5, o6, o7, o8⟩ := o
    rw [hp] at heq
    simp only [Option.bind_eq_bind, Option.pure_def, Option.some_bind] at heq
    rcases hst : acl_state_of P with _ | st
    · rw [hst] at heq
      simp at heq
    rw [hst] at heq
    simp only [Option.some_bind] at heq
    rcases hb1 : resolve_service iana proto o2 with _ | r1
    · rw [hb1] at heq
      simp at heq
    rw [hb1] at heq
    simp only [Option.some_bind] at heq
    have ho3 : o3 = "" := hspe
    rw [ho3, resolve_service_empty] at heq
    simp only [Option.some_bind] at heq
    rcases hb3 : resolve_service iana proto o7 with _ | r3
    · rw [hb3] at heq
      simp at heq
    rw [hb3] at heq
    simp only [Option.some_bind] at heq
    rcases hb4 : resolve_service iana proto o8 with _ | r4
    · rw [hb4] at heq
      simp at heq
    rw [hb4] at heq
    simp only [Option.some_bind, Option.some.injEq] at heq
    rw [← heq]

/-- C9 (amended): for every permit/deny rule with protocol `tcp`/`udp`
whose token after `src_ip` is `range` but where the two tokens following
the (first) `range` are not both purely numeric, the `range` is treated as
a false match: any parse that completes has `src_port_end` empty. (The
parse is however not error-free for every such rule — see the
counterexample `range_false_match_cex`.) -/
theorem range_false_match (iana : List (String × List String))
    (name rem : String) (toks : List String)
    (hact : elt (pad16 toks) 1 = "permit" ∨ elt (pad16 toks) 1 = "deny")
    (hproto : elt (pad16 toks) 2 = "tcp" ∨ elt (pad16 toks) 2 = "udp")
    (hrange : value_by_position (pad16 toks)
      (if elt (pad16 toks) 3 = "host" then elt (pad16 toks) 4
        else elt (pad16 toks) 3) 1 = some "range")
    (hnn : ¬ ∃ a b, value_by_position (pad16 toks) "range" 1 = some a ∧
      value_by_position (pad16 toks) "range" 2 = some b ∧
      isNumStr a = true ∧ isNumStr b = true) :
    ∀ pr rem', acl_rule_parse_toks iana name rem toks = some (pr, rem') →
      pr.src_port_end = "" := by
  intro pr rem' heq
  have hlen := pad16_length_ge toks
  have g0 : pyGet (pad16 toks) (0 : Int) = some (elt (pad16 toks) 0) :=
    pyGet_eq_elt (l := pad16 toks) (k := 0) (by omega)
  have g1 : pyGet (pad16 toks) (1 : Int) = some (elt (pad16 toks) 1) :=
    pyGet_eq_elt (l := pad16 toks) (k := 1) (by omega)
  have g2 : pyGet (pad16 toks) (2 : Int) = some (elt (pad16 toks) 2) :=
    pyGet_eq_elt (l := pad16 toks) (k := 2) (by omega)
  have g3 : pyGet (pad16 toks) (3 : Int) = some (elt (pad16 toks) 3) :=
    pyGet_eq_elt (l := pad16 toks) (k := 3) (by omega)
  have g4 : pyGet (pad16 toks) (4 : Int) = some (elt (pad16 toks) 4) :=
    pyGet_eq_elt (l := pad16 toks) (k := 4) (by omega)
  have hne_remark : elt (pad16 toks) 1 ≠ "remark" := by
    rcases hact with h | h <;> rw [h] <;> decide
  rw [acl_rule_parse_toks] at heq
  simp only [Option.bind_eq_bind, Option.pure_def, g0, g1, g2, g3, g4,
    Option.some_bind, if_neg hne_remark] at heq
  split at heq
  · rename_i h3
    rcases htr : parse_transport iana (pad16 toks) (elt (pad16 toks) 2)
        (elt (pad16 toks) 4) with _ | tf
    · rw [htr] at heq
      simp at heq
    · have hr4 : value_by_position (pad16 toks) (elt (pad16 toks) 4) 1 =
          some "range" := by
        rw [if_pos h3] at hrange
        exact hrange
      have hspe := parse_transport_spe iana (pad16 toks)
        (elt (pad16 toks) 2) (elt (pad16 toks) 4) hr4 hnn tf htr
      obtain ⟨a1, a2, a3, a4, a5, a6, a7, a8, a9⟩ := tf
      rw [htr] at heq
      simp only [Option.some_bind, Option.some.injEq, Prod.mk.injEq] at heq
      rw [← heq.1]
      exact hspe
  · rename_i h3
    rcases htr : parse_transport iana (pad16 toks) (elt (pad16 toks) 2)
        (elt (pad16 toks) 3) with _ | tf
    · rw [htr] at heq
      simp at heq
    · have hr3 : value_by_position (pad16 toks) (elt (pad16 toks) 3) 1 =
          some "range" := by
        rw [if_neg h3] at hrange
        exact hrange
      have hspe := parse_transport_spe iana (pad16 toks)
        (elt (pad16 toks) 2) (elt (pad16 toks) 3) hr3 hnn tf htr
      obtain ⟨a1, a2, a3, a4, a5, a6, a7, a8, a9⟩ := tf
      rw [htr] at heq
      simp only [Option.some_bind, Option.some.injEq, Prod.mk.injEq] at heq
      rw [← heq.1]
      exact hspe

/-- C9 fails as stated: on the 15-token rule
`10 permit tcp any range foo bar a b c d e f g h` the source operator is
`range` and the following tokens `foo`/`bar` are not numeric, yet the parse
raises (an `IndexError`: `dst_ip` stays empty and the relative lookup from
the empty padding token runs off the end) instead of degrading
gracefully. -/
theorem range_false_match_cex :
    value_by_position
      (pad16 (pySplit "10 permit tcp any range foo bar a b c d e f g h"))
      "any" 1 = some "range" ∧
    isNumStr "foo" = false ∧
    acl_rule_parse_toks [] "N" ""
      (pySplit "10 permit tcp any range foo bar a b c d e f g h") = none :=
  ⟨rfl, by decide, rfl⟩

/-- Witness for the amended C9 on `10 permit tcp any range 999. 1.2.3.4`:
the range is a false match (`999.` is not purely numeric), the parse
completes, and `src_port_end` is empty. -/
theorem range_false_match_witness :
    (elt (pad16 (pySplit "10 permit tcp any range 999. 1.2.3.4")) 1 = "permit" ∨
      elt (pad16 (pySplit "10 permit tcp any range 999. 1.2.3.4")) 1 = "deny") ∧
    (elt (pad16 (pySplit "10 permit tcp any range 999. 1.2.3.4")) 2 = "tcp" ∨
      elt (pad16 (pySplit "10 permit tcp any range 999. 1.2.3.4")) 2 = "udp") ∧
    (∃ pr, acl_rule_parse_toks [] "N" ""
      (pySplit "10 permit tcp any range 999. 1.2.3.4") = some (pr, "")) ∧
    (∀ pr rem', acl_rule_parse_toks [] "N" ""
        (pySplit "10 permit tcp any range 999. 1.2.3.4") = some (pr, rem') →
      pr.src_port_end = "") :=
  ⟨Or.inl (by decide), Or.inl (by decide),
    ⟨⟨"N", "", "10", "permit", "tcp", "network", "any", "range", "999.",
      "", "network", "1.2.3.4", "", "", "", ""⟩, rfl⟩,
    range_false_match [] "N" "" (pySplit "10 permit tcp any range 999. 1.2.3.4")
      (Or.inl (by decide)) (Or.inl (by decide)) (by decide)
      (by
        rintro ⟨a, b, h1, h2, ha, hb⟩
        rw [show value_by_position
          (pad16 (pySplit "10 permit tcp any range 999. 1.2.3.4"))
          "range" 1 = some "999." from rfl] at h1
        injection h1 with h1
        subst h1
        exact absurd ha (by decide))⟩

/-! ## C6, C7: the service-name table -/

/-- `str.split` never yields an empty list of pieces. -/
theorem splitOnChar_ne_nil {c : Char} {l : List Char} :
    splitOnChar c l ≠ [] := by
  cases l with
  | nil => simp [splitOnChar]
  | cons a rest =>
    rcases h : splitOnChar c rest with _ | ⟨hd, tl⟩ <;>
      rw [splitOnChar, h] <;> split <;> split <;> simp_all

/-- Splitting on a character that does not occur returns the whole list. -/
theorem splitOnChar_of_not_mem {c : Char} {l : List Char} (h : c ∉ l) :
    splitOnChar c l = [l] := by
  induction l with
  | nil => rfl
  | cons a t ih =>
    have hc : ¬ a = c := fun e => h (List.mem_cons.mpr (Or.inl e.symm))
    have ht : c ∉ t := fun e => h (List.mem_cons_of_mem a e)
    rw [splitOnChar, ih ht]
    simp [hc]

/-- Splitting at the (first) separator occurrence. -/
theorem splitOnChar_append {c : Char} {xs ys : List Char} (h : c ∉ xs) :
    splitOnChar c (xs ++ c :: ys) = xs :: splitOnChar c ys := by
  induction xs with
  | nil =>
    simp only [List.nil_append]
    rw [splitOnChar]
    rcases hys : splitOnChar c ys with _ | ⟨hd, tl⟩
    · exact absurd hys splitOnChar_ne_nil
    · simp
  | cons a t ih =>
    have hc : ¬ a = c := fun e => h (List.mem_cons.mpr (Or.inl e.symm))
    have ht : c ∉ t := fun e => h (List.mem_cons_of_mem a e)
    rw [List.cons_append, splitOnChar, ih ht]
    simp [hc]

/-- `(p + '_' + pt).split('_') == [p, pt]` when neither part contains an
underscore. -/
theorem splitUnderscore_pair {p pt : String} (hp : ('_' : Char) ∉ p.data)
    (hpt : ('_' : Char) ∉ pt.data) :
    splitUnderscore (p ++ "_" ++ pt) = [p, pt] := by
  rw [splitUnderscore]
  have hd : (p ++ "_" ++ pt).data = p.data ++ '_' :: pt.data := by
    simp [String.data_append]
  rw [hd, splitOnChar_append hp, splitOnChar_of_not_mem hpt]
  simp

/-- `''.join([x]) == x`. -/
theorem join_singleton (x : String) : String.join [x] = x := rfl

/-- C6 fails as stated: build the table from the two rows
`("x", tcp, 80)` and `("x", tcp, 443)`; resolving `x` for `tcp` joins both
matching candidates into `tcp_80tcp_443` and returns the fragment `80tcp`,
which is the port string of neither source row. -/
theorem service_round_trip_cex :
    resolve_service (iana_srv_parse [("x", "tcp", "80"), ("x", "tcp", "443")])
      "tcp" "x" = some "80tcp" ∧
    ("80tcp" : String) ≠ "80" ∧ ("80tcp" : String) ≠ "443" :=
  ⟨rfl, by decide, by decide⟩

/-- C6 (amended): the round-trip holds for a row `(n, p, pt)` whose name
contains a lowercase letter and is not the aliased token `netbios-ss`,
whose protocol and port contain no underscore, and for which filtering the
name's candidate set by the protocol (a substring test) leaves exactly that
row's entry: resolving `n` with `p` then returns exactly `pt`. -/
theorem service_round_trip (rows : List (String × String × String))
    (n p pt : String) (hmem : (n, p, pt) ∈ rows)
    (hlow : hasLower n = true) (halias : n ≠ "netbios-ss")
    (hpu : ('_' : Char) ∉ p.data) (hptu : ('_' : Char) ∉ pt.data)
    (lst : List String)
    (hget : dictGet (iana_srv_parse rows) n = some lst)
    (hfilter : lst.filter (fun x => isSubstrOf p x) = [p ++ "_" ++ pt]) :
    resolve_service (iana_srv_parse rows) p n = some pt := by
  rw [resolve_service]
  simp only [if_neg halias, hlow, if_true, hget, hfilter,
    join_singleton, splitUnderscore_pair hpu hptu]
  rfl

/-- Witness for the amended C6 on the single row `("http", "tcp", "80")`. -/
theorem service_round_trip_witness :
    (("http", "tcp", "80") ∈ [("http", "tcp", "80")] ∧
      hasLower "http" = true ∧ ("http" : String) ≠ "netbios-ss" ∧
      ('_' : Char) ∉ ("tcp" : String).data ∧
      ('_' : Char) ∉ ("80" : String).data ∧
      dictGet (iana_srv_parse [("http", "tcp", "80")]) "http" =
        some ["tcp_80"] ∧
      (["tcp_80"] : List String).filter (fun x => isSubstrOf "tcp" x) =
        ["tcp" ++ "_" ++ "80"]) ∧
    resolve_service (iana_srv_parse [("http", "tcp", "80")]) "tcp" "http" =
      some "80" :=
  ⟨⟨by decide, by decide, by decide, by decide, by decide, rfl, by decide⟩,
    service_round_trip [("http", "tcp", "80")] "http" "tcp" "80"
      (by decide) (by decide) (by decide) (by decide) (by decide)
      ["tcp_80"] rfl (by decide)⟩

/-- C2: parsing `20 permit tcp any range 1024 65535 host 10.2.2.2 eq 80`
(with any service table and an empty sticky remark) yields
`src_operator = "range"`, `src_port_begin = "1024"`,
`src_port_end = "65535"`, `dst_type = "host"`, `dst_ip = "10.2.2.2"`,
`dst_operator = "eq"` and `dst_port_begin = "80"`. -/
theorem scenario_b (iana : List (String × List String)) :
    acl_rule_parse iana "TESTACL" ""
      "20 permit tcp any range 1024 65535 host 10.2.2.2 eq 80" =
    some (⟨"TESTACL", "", "20", "permit", "tcp", "network", "any", "range",
      "1024", "65535", "host", "10.2.2.2", "eq", "80", "", ""⟩, "") := rfl

/-- C7: for every service table, resolving `netbios-ss` for `udp` gives
exactly the same result as resolving `netbios-ssn` for `udp` — the alias
rewrite happens before the lookup. -/
theorem netbios_alias (iana : List (String × List String)) :
    resolve_service iana "udp" "netbios-ss" =
    resolve_service iana "udp" "netbios-ssn" := rfl


/-! ## C1: destination ports come from the second (rightmost) `range` -/

/-- A permit/deny tcp/udp rule of the shape
`seq act proto sip range p1 p2 dip range q1 q2` (both port clauses given by
`range`, destination without a `host` qualifier), parsed in closed form.
The non-collision hypotheses pin each anchor to its intended position. -/
theorem two_range_shape_a (iana : List (String × List String))
    (name rem seq act proto sip p1 p2 dip q1 q2 : String)
    (hact : act = "permit" ∨ act = "deny")
    (hproto : proto = "tcp" ∨ proto = "udp")
    (hsiph : sip ≠ "host") (hsipr : sip ≠ "range") (hseqr : seq ≠ "range")
    (hsmem : sip ∉ ([seq, act, proto] : List String))
    (hp1 : isNumStr p1 = true) (hp2 : isNumStr p2 = true)
    (hq1 : isNumStr q1 = true) (hq2 : isNumStr q2 = true)
    (hdiph : dip ≠ "host")
    (hdmem : dip ∉ ([seq, act, proto, sip, "range", p1, p2] : List String)) :
    acl_rule_parse_toks iana name rem
      [seq, act, proto, sip, "range", p1, p2, dip, "range", q1, q2] =
    some (⟨name, rem, seq, act, proto, "network", sip, "range", p1, p2,
      "network", dip, "range", q1, q2, ""⟩, rem) := by
  simp only [List.mem_cons, List.not_mem_nil, or_false, not_or] at hsmem hdmem
  obtain ⟨hs1, hs2, hs3⟩ := hsmem
  obtain ⟨hd1, hd2, hd3, hd4, hd5, hd6, hd7⟩ := hdmem
  have hactr : act ≠ "range" := by
    rcases hact with h | h <;> rw [h] <;> decide
  have hactrem : act ≠ "remark" := by
    rcases hact with h | h <;> rw [h] <;> decide
  have hprotor : proto ≠ "range" := by
    rcases hproto with h | h <;> rw [h] <;> decide
  have hq1r : q1 ≠ "range" := isNumStr_ne_of hq1 (by decide)
  have hq2r : q2 ≠ "range" := isNumStr_ne_of hq2 (by decide)
  have hq2e : q2 ≠ "established" := isNumStr_ne_of hq2 (by decide)
  have hq2n : (q2 != "") = true := by
    simp only [bne_iff_ne, ne_eq]
    exact isNumStr_ne_empty hq2
  have hP : pad16 [seq, act, proto, sip, "range", p1, p2, dip, "range",
      q1, q2] = [seq, act, proto, sip, "range", p1, p2, dip, "range", q1, q2, "", "", "", "", ""] := rfl
  have hRA : ([seq, act, proto, sip, "range", p1, p2, dip, "range", q1, q2, "", "", "", "", ""] : List String).reverse = ["", "", "", "", "", q2, q1, "range", dip, p2, p1, "range", sip, proto, act, seq] := rfl
  have n1 : pyIndex? [seq, act, proto, sip, "range", p1, p2, dip, "range", q1, q2, "", "", "", "", ""] sip = some 3 := by
    simp [pyIndex?, Ne.symm hs1, Ne.symm hs2, Ne.symm hs3]
  have n2 : pyIndex? [seq, act, proto, sip, "range", p1, p2, dip, "range", q1, q2, "", "", "", "", ""] "range" = some 4 := by
    simp [pyIndex?, hseqr, hactr, hprotor, hsipr]
  have n3 : pyIndex? [seq, act, proto, sip, "range", p1, p2, dip, "range", q1, q2, "", "", "", "", ""] dip = some 7 := by
    simp [pyIndex?, Ne.symm hd1, Ne.symm hd2, Ne.symm hd3, Ne.symm hd4,
      Ne.symm hd5, Ne.symm hd6, Ne.symm hd7]
  have n4 : pyIndex? ["", "", "", "", "", q2, q1, "range", dip, p2, p1, "range", sip, proto, act, seq] "range" = some 7 := by
    simp [pyIndex?, hq1r, hq2r, show ("" : String) ≠ "range" by decide]
  have v1 : value_by_position [seq, act, proto, sip, "range", p1, p2, dip, "range", q1, q2, "", "", "", "", ""] sip 1 = some "range" := by
    rw [value_by_position, n1]
    rfl
  have v2 : value_by_position [seq, act, proto, sip, "range", p1, p2, dip, "range", q1, q2, "", "", "", "", ""] "range" 1 = some p1 := by
    rw [value_by_position, n2]
    rfl
  have v3 : value_by_position [seq, act, proto, sip, "range", p1, p2, dip, "range", q1, q2, "", "", "", "", ""] "range" 2 = some p2 := by
    rw [value_by_position, n2]
    rfl
  have v4 : value_by_position [seq, act, proto, sip, "range", p1, p2, dip, "range", q1, q2, "", "", "", "", ""] "range" 3 = some dip := by
    rw [value_by_position, n2]
    rfl
  have v5 : value_by_position [seq, act, proto, sip, "range", p1, p2, dip, "range", q1, q2, "", "", "", "", ""] dip 1 = some "range" := by
    rw [value_by_position, n3]
    rfl
  have v6 : value_by_position ["", "", "", "", "", q2, q1, "range", dip, p2, p1, "range", sip, proto, act, seq] "range" (-1) = some q1 := by
    rw [value_by_position, n4]
    rfl
  have v7 : value_by_position ["", "", "", "", "", q2, q1, "range", dip, p2, p1, "range", sip, proto, act, seq] "range" (-2) = some q2 := by
    rw [value_by_position, n4]
    rfl
  have hstate : acl_state_of [seq, act, proto, sip, "range", p1, p2, dip, "range", q1, q2, "", "", "", "", ""] = some "" := by
    rw [acl_state_of, hRA]
    simp [List.find?, hq2n, hq2e]
  have hsp : parse_src_clause [seq, act, proto, sip, "range", p1, p2, dip, "range", q1, q2, "", "", "", "", ""] "range" =
      some (p1, p2, "network", dip) := by
    simp [parse_src_clause, v2, v3, v4, hp1, hp2, hdiph]
  have hdo : parse_dst_op [seq, act, proto, sip, "range", p1, p2, dip, "range", q1, q2, "", "", "", "", ""] dip = some ("range", q1, q2) := by
    simp [parse_dst_op, v5, hRA, v6, v7, hq1, hq2]
  have hpp : parse_ports [seq, act, proto, sip, "range", p1, p2, dip, "range", q1, q2, "", "", "", "", ""] sip =
      some ("range", p1, p2, "network", dip, "range", q1, q2) := by
    simp [parse_ports, v1, hsp, hdo, show hasDigit "range" = false by decide]
  have htr : parse_transport iana [seq, act, proto, sip, "range", p1, p2, dip, "range", q1, q2, "", "", "", "", ""] proto sip =
      some ("range", p1, p2, "network", dip, "range", q1, q2, "") := by
    simp [parse_transport, hpp, hstate,
      resolve_service_numeric iana proto hp1,
      resolve_service_numeric iana proto hp2,
      resolve_service_numeric iana proto hq1,
      resolve_service_numeric iana proto hq2]
  rw [acl_rule_parse_toks]
  simp [hP, pyGet, hactrem, hsiph, if_pos hproto, htr]

/-- The same shape with a `host` destination qualifier:
`seq act proto sip range p1 p2 host dip range q1 q2`. -/
theorem two_range_shape_b (iana : List (String × List String))
    (name rem seq act proto sip p1 p2 dip q1 q2 : String)
    (hact : act = "permit" ∨ act = "deny")
    (hproto : proto = "tcp" ∨ proto = "udp")
    (hsiph : sip ≠ "host") (hsipr : sip ≠ "range") (hseqr : seq ≠ "range")
    (hsmem : sip ∉ ([seq, act, proto] : List String))
    (hp1 : isNumStr p1 = true) (hp2 : isNumStr p2 = true)
    (hq1 : isNumStr q1 = true) (hq2 : isNumStr q2 = true)
    (hdiph : dip ≠ "host")
    (hdmem : dip ∉ ([seq, act, proto, sip, "range", p1, p2] : List String)) :
    acl_rule_parse_toks iana name rem
      [seq, act, proto, sip, "range", p1, p2, "host", dip, "range", q1, q2] =
    some (⟨name, rem, seq, act, proto, "network", sip, "range", p1, p2,
      "host", dip, "range", q1, q2, ""⟩, rem) := by
  simp only [List.mem_cons, List.not_mem_nil, or_false, not_or] at hsmem hdmem
  obtain ⟨hs1, hs2, hs3⟩ := hsmem
  obtain ⟨hd1, hd2, hd3, hd4, hd5, hd6, hd7⟩ := hdmem
  have hactr : act ≠ "range" := by
    rcases hact with h | h <;> rw [h] <;> decide
  have hactrem : act ≠ "remark" := by
    rcases hact with h | h <;> rw [h] <;> decide
  have hprotor : proto ≠ "range" := by
    rcases hproto with h | h <;> rw [h] <;> decide
  have hq1r : q1 ≠ "range" := isNumStr_ne_of hq1 (by decide)
  have hq2r : q2 ≠ "range" := isNumStr_ne_of hq2 (by decide)
  have hq2e : q2 ≠ "established" := isNumStr_ne_of hq2 (by decide)
  have hq2n : (q2 != "") = true := by
    simp only [bne_iff_ne, ne_eq]
    exact isNumStr_ne_empty hq2
  have hP : pad16 [seq, act, proto, sip, "range", p1, p2, "host", dip,
      "range", q1, q2] = [seq, act, proto, sip, "range", p1, p2, "host", dip, "range", q1, q2, "", "", "", ""] := rfl
  have hRB : ([seq, act, proto, sip, "range", p1, p2, "host", dip, "range", q1, q2, "", "", "", ""] : List String).reverse = ["", "", "", "", q2, q1, "range", dip, "host", p2, p1, "range", sip, proto, act, seq] := rfl
  have n1 : pyIndex? [seq, act, proto, sip, "range", p1, p2, "host", dip, "range", q1, q2, "", "", "", ""] sip = some 3 := by
    simp [pyIndex?, Ne.symm hs1, Ne.symm hs2, Ne.symm hs3]
  have n2 : pyIndex? [seq, act, proto, sip, "range", p1, p2, "host", dip, "range", q1, q2, "", "", "", ""] "range" = some 4 := by
    simp [pyIndex?, hseqr, hactr, hprotor, hsipr]
  have n3 : pyIndex? [seq, act, proto, sip, "range", p1, p2, "host", dip, "range", q1, q2, "", "", "", ""] dip = some 8 := by
    simp [pyIndex?, Ne.symm hd1, Ne.symm hd2, Ne.symm hd3, Ne.symm hd4,
      Ne.symm hd5, Ne.symm hd6, Ne.symm hd7, Ne.symm hdiph]
  have n4 : pyIndex? ["", "", "", "", q2, q1, "range", dip, "host", p2, p1, "range", sip, proto, act, seq] "range" = some 6 := by
    simp [pyIndex?, hq1r, hq2r, show ("" : String) ≠ "range" by decide]
  have v1 : value_by_position [seq, act, proto, sip, "range", p1, p2, "host", dip, "range", q1, q2, "", "", "", ""] sip 1 = some "range" := by
    rw [value_by_position, n1]
    rfl
  have v2 : value_by_position [seq, act, proto, sip, "range", p1, p2, "host", dip, "range", q1, q2, "", "", "", ""] "range" 1 = some p1 := by
    rw [value_by_position, n2]
    rfl
  have v3 : value_by_position [seq, act, proto, sip, "range", p1, p2, "host", dip, "range", q1, q2, "", "", "", ""] "range" 2 = some p2 := by
    rw [value_by_position, n2]
    rfl
  have v4 : value_by_position [seq, act, proto, sip, "range", p1, p2, "host", dip, "range", q1, q2, "", "", "", ""] "range" 3 = some "host" := by
    rw [value_by_position, n2]
    rfl
  have v4b : value_by_position [seq, act, proto, sip, "range", p1, p2, "host", dip, "range", q1, q2, "", "", "", ""] "range" 4 = some dip := by
    rw [value_by_position, n2]
    rfl
  have v5 : value_by_position [seq, act, proto, sip, "range", p1, p2, "host", dip, "range", q1, q2, "", "", "", ""] dip 1 = some "range" := by
    rw [value_by_position, n3]
    rfl
  have v6 : value_by_position ["", "", "", "", q2, q1, "range", dip, "host", p2, p1, "range", sip, proto, act, seq] "range" (-1) = some q1 := by
    rw [value_by_position, n4]
    rfl
  have v7 : value_by_position ["", "", "", "", q2, q1, "range", dip, "host", p2, p1, "range", sip, proto, act, seq] "range" (-2) = some q2 := by
    rw [value_by_position, n4]
    rfl
  have hstate : acl_state_of [seq, act, proto, sip, "range", p1, p2, "host", dip, "range", q1, q2, "", "", "", ""] = some "" := by
    rw [acl_state_of, hRB]
    simp [List.find?, hq2n, hq2e]
  have hsp : parse_src_clause [seq, act, proto, sip, "range", p1, p2, "host", dip, "range", q1, q2, "", "", "", ""] "range" =
      some (p1, p2, "host", dip) := by
    simp [parse_src_clause, v2, v3, v4, v4b, hp1, hp2]
  have hdo : parse_dst_op [seq, act, proto, sip, "range", p1, p2, "host", dip, "range", q1, q2, "", "", "", ""] dip = some ("range", q1, q2) := by
    simp [parse_dst_op, v5, hRB, v6, v7, hq1, hq2]
  have hpp : parse_ports [seq, act, proto, sip, "range", p1, p2, "host", dip, "range", q1, q2, "", "", "", ""] sip =
      some ("range", p1, p2, "host", dip, "range", q1, q2) := by
    simp [parse_ports, v1, hsp, hdo, show hasDigit "range" = false by decide]
  have htr : parse_transport iana [seq, act, proto, sip, "range", p1, p2, "host", dip, "range", q1, q2, "", "", "", ""] proto sip =
      some ("range", p1, p2, "host", dip, "range", q1, q2, "") := by
    simp [parse_transport, hpp, hstate,
      resolve_service_numeric iana proto hp1,
      resolve_service_numeric iana proto hp2,
      resolve_service_numeric iana proto hq1,
      resolve_service_numeric iana proto hq2]
  rw [acl_rule_parse_toks]
  simp [hP, pyGet, hactrem, hsiph, if_pos hproto, htr]

/-- C1: for permit/deny rules with protocol `tcp`/`udp` whose token
sequence contains `range` twice — once as the source port operator and once
as the destination port operator (with or without a destination `host`
qualifier) — the parser resolves `dst_operator`, `dst_port_begin` and
`dst_port_end` from the second (rightmost) `range`: the destination port
fields equal the tokens adjacent to the destination-side `range` (`q1`,
`q2`), not the source ports (`p1`, `p2`). -/
theorem dst_from_second_range (iana : List (String × List String))
    (name rem seq act proto sip p1 p2 dip q1 q2 : String)
    (hact : act = "permit" ∨ act = "deny")
    (hproto : proto = "tcp" ∨ proto = "udp")
    (hsiph : sip ≠ "host") (hsipr : sip ≠ "range") (hseqr : seq ≠ "range")
    (hsmem : sip ∉ ([seq, act, proto] : List String))
    (hp1 : isNumStr p1 = true) (hp2 : isNumStr p2 = true)
    (hq1 : isNumStr q1 = true) (hq2 : isNumStr q2 = true)
    (hdiph : dip ≠ "host")
    (hdmem : dip ∉ ([seq, act, proto, sip, "range", p1, p2] : List String)) :
    (∃ pr, acl_rule_parse_toks iana name rem
        [seq, act, proto, sip, "range", p1, p2, dip, "range", q1, q2] =
        some (pr, rem) ∧
      pr.src_operator = "range" ∧ pr.src_port_begin = p1 ∧
      pr.src_port_end = p2 ∧ pr.dst_ip = dip ∧ pr.dst_operator = "range" ∧
      pr.dst_port_begin = q1 ∧ pr.dst_port_end = q2) ∧
    (∃ pr, acl_rule_parse_toks iana name rem
        [seq, act, proto, sip, "range", p1, p2, "host", dip, "range", q1, q2] =
        some (pr, rem) ∧
      pr.src_operator = "range" ∧ pr.src_port_begin = p1 ∧
      pr.src_port_end = p2 ∧ pr.dst_type = "host" ∧ pr.dst_ip = dip ∧
      pr.dst_operator = "range" ∧ pr.dst_port_begin = q1 ∧
      pr.dst_port_end = q2) :=
  ⟨⟨_, two_range_shape_a iana name rem seq act proto sip p1 p2 dip q1 q2
      hact hproto hsiph hsipr hseqr hsmem hp1 hp2 hq1 hq2 hdiph hdmem,
    rfl, rfl, rfl, rfl, rfl, rfl, rfl⟩,
  ⟨_, two_range_shape_b iana name rem seq act proto sip p1 p2 dip q1 q2
      hact hproto hsiph hsipr hseqr hsmem hp1 hp2 hq1 hq2 hdiph hdmem,
    rfl, rfl, rfl, rfl, rfl, rfl, rfl, rfl⟩⟩

/-- Witness for C1 on concrete two-`range` rules. -/
theorem dst_from_second_range_witness :
    (∃ pr, acl_rule_parse_toks [] "N" ""
        ["10", "permit", "tcp", "1.1.1.1", "range", "1024", "2048",
          "2.2.2.2", "range", "100", "200"] = some (pr, "") ∧
      pr.src_operator = "range" ∧ pr.src_port_begin = "1024" ∧
      pr.src_port_end = "2048" ∧ pr.dst_ip = "2.2.2.2" ∧
      pr.dst_operator = "range" ∧ pr.dst_port_begin = "100" ∧
      pr.dst_port_end = "200") ∧
    (∃ pr, acl_rule_parse_toks [] "N" ""
        ["10", "permit", "tcp", "1.1.1.1", "range", "1024", "2048",
          "host", "2.2.2.2", "range", "100", "200"] = some (pr, "") ∧
      pr.src_operator = "range" ∧ pr.src_port_begin = "1024" ∧
      pr.src_port_end = "2048" ∧ pr.dst_type = "host" ∧
      pr.dst_ip = "2.2.2.2" ∧ pr.dst_operator = "range" ∧
      pr.dst_port_begin = "100" ∧ pr.dst_port_end = "200") :=
  dst_from_second_range [] "N" "" "10" "permit" "tcp" "1.1.1.1"
    "1024" "2048" "2.2.2.2" "100" "200" (Or.inl rfl) (Or.inl rfl)
    (by decide) (by decide) (by decide) (by decide) (by decide)
    (by decide) (by decide) (by decide) (by decide) (by decide)

end AclParse

